import Mathlib

/-!
# Verification of the Bogo3D dispersion-evaluation scripts

Shallow embedding of the mathematical core of the Bogo3D repository
(`dash-app.py`, `dash_app-omega.py`, `multi_dash.py`, `bogo2d.py`,
`fluid1.py`, `shiny-app.py`): the Bogoliubov dispersion formula evaluated
as scalars, over meshgrid-style 2D grids, and along 1D cuts, together with
the derived healing-length wavenumber.  Machine floats are idealised as
exact reals; the NaN behaviour of `np.sqrt` on negative arguments is
modelled explicitly by an `Option`-valued square root.
-/

namespace Bogo3D

/-! ## Scalar dispersion formulas (from the source) -/

/-- Embeds `K = np.sqrt(kx**2 + ky**2)`, the transverse wavevector magnitude used by
the spatial 2D scripts (`dash-app.py` line 72, `multi_dash.py` line 338). -/
noncomputable def Kmag (kx ky : ℝ) : ℝ := Real.sqrt (kx ^ 2 + ky ^ 2)

/-- The radicand of the spatial-mode dispersion:
`(K**2 / (2 * k0))**2 + K**2 * Delta_n` (`dash-app.py` line 73). -/
noncomputable def radB (k0 dn kx ky : ℝ) : ℝ :=
  (Kmag kx ky ^ 2 / (2 * k0)) ^ 2 + Kmag kx ky ^ 2 * dn

/-- Spatial 2D mode: `OmegaB = np.sqrt((K**2/(2*k0))**2 + K**2*Delta_n)`
(`dash-app.py` lines 72-73, `multi_dash.py` lines 338-339). -/
noncomputable def OmegaB (k0 dn kx ky : ℝ) : ℝ := Real.sqrt (radB k0 dn kx ky)

/-- Free (parabolic) dispersion in spatial mode:
`OmegaB_free = (K_cut**2) / (2 * k0)` (`dash-app.py` line 80). -/
noncomputable def OmegaB_free (k0 kx ky : ℝ) : ℝ := Kmag kx ky ^ 2 / (2 * k0)

/-- Embeds `K = np.sqrt(KX**2)`, the wavevector magnitude used by the
spatio-temporal scripts (`dash_app-omega.py` line 71, `multi_dash.py`
line 214). -/
noncomputable def KmagOm (kx : ℝ) : ℝ := Real.sqrt (kx ^ 2)

/-- The radicand of the spatio-temporal dispersion
(`dash_app-omega.py` lines 72-74): the Δω axis value is in MHz and is
multiplied by `1e6` inside the formula. -/
noncomputable def radOm (k0 dn D0 kx dom : ℝ) : ℝ :=
  (KmagOm kx ^ 2 / (2 * k0) + D0 * (dom * 1e6) ^ 2) ^ 2
    + KmagOm kx ^ 2 * dn + (dom * 1e6) ^ 2 * D0 * k0 * dn

/-- Spatio-temporal mode (`dash_app-omega.py` lines 71-74,
`multi_dash.py` lines 214-219). -/
noncomputable def OmegaOm (k0 dn D0 kx dom : ℝ) : ℝ := Real.sqrt (radOm k0 dn D0 kx dom)

/-- Free dispersion in spatio-temporal mode:
`OmegaB_free = (K_cut**2)/(2*k0) + D0*(domega_cut*1e6)**2`
(`dash_app-omega.py` line 81). -/
noncomputable def OmegaOm_free (k0 D0 kx dom : ℝ) : ℝ :=
  KmagOm kx ^ 2 / (2 * k0) + D0 * (dom * 1e6) ^ 2

/-- IEEE behaviour of `np.sqrt`: a negative argument produces NaN, modelled
as `none`; a non-negative argument produces the real square root. -/
noncomputable def sqrtChecked (x : ℝ) : Option ℝ :=
  if 0 ≤ x then some (Real.sqrt x) else none

/-- The spatio-temporal evaluation as the floating-point code performs it:
`np.sqrt` of the radicand, NaN (`none`) when the radicand is negative. -/
noncomputable def OmegaOm_ieee (k0 dn D0 kx dom : ℝ) : Option ℝ :=
  sqrtChecked (radOm k0 dn D0 kx dom)

/-- Derived display quantity `k_xi = round(k0 * np.sqrt(Delta_n) * 1e-3)`
(`dash-app.py` line 83, `multi_dash.py` line 257). -/
noncomputable def healing_wavenumber (k0 dn : ℝ) : ℤ :=
  round (k0 * Real.sqrt dn * 1e-3)

/-! ## Grids: numpy arrays as lists of lists, elementwise operations -/

/-- A 2D numpy array, modelled as a list of rows. -/
abbrev Mat := List (List ℝ)

/-- An elementwise unary numpy operation on a 2D array. -/
def emap (f : ℝ → ℝ) (A : Mat) : Mat := A.map (fun r => r.map f)

/-- An elementwise binary numpy operation on two same-shaped 2D arrays. -/
def ezip (f : ℝ → ℝ → ℝ) (A B : Mat) : Mat := List.zipWith (List.zipWith f) A B

/-- First component of `np.meshgrid(xs, ys)`: row `i` repeats `xs`,
so entry `(i, j)` is `xs[j]`. -/
def meshgridX (xs ys : List ℝ) : Mat := ys.map (fun _ => xs)

/-- Second component of `np.meshgrid(xs, ys)`: entry `(i, j)` is `ys[i]`. -/
def meshgridY (xs ys : List ℝ) : Mat := ys.map (fun y => xs.map (fun _ => y))

/-- Embeds `K = np.sqrt(KX**2 + KY**2)` over the meshgrid (`dash-app.py` line 72). -/
noncomputable def Kgrid (kxs kys : List ℝ) : Mat :=
  emap Real.sqrt
    (ezip (· + ·) (emap (fun x => x ^ 2) (meshgridX kxs kys))
      (emap (fun y => y ^ 2) (meshgridY kxs kys)))

/-- The spatial 2D dispersion surface
`OmegaB = np.sqrt((K**2 / (2 * k0))**2 + K**2 * Delta_n)`
(`dash-app.py` lines 72-73), as the elementwise numpy pipeline. -/
noncomputable def OmegaB_grid (k0 dn : ℝ) (kxs kys : List ℝ) : Mat :=
  emap Real.sqrt
    (ezip (· + ·) (emap (fun k => (k ^ 2 / (2 * k0)) ^ 2) (Kgrid kxs kys))
      (emap (fun k => k ^ 2 * dn) (Kgrid kxs kys)))

/-- Embeds `K = np.sqrt(KX**2)` over the meshgrid (`dash_app-omega.py` line 71). -/
noncomputable def KgridOm (kxs doms : List ℝ) : Mat :=
  emap Real.sqrt (emap (fun x => x ^ 2) (meshgridX kxs doms))

/-- The spatio-temporal dispersion surface (`dash_app-omega.py` lines 71-74,
`multi_dash.py` lines 214-219), as the elementwise numpy pipeline over the
`(KX, DOMEGA)` meshgrid. -/
noncomputable def OmegaOm_grid (k0 dn D0 : ℝ) (kxs doms : List ℝ) : Mat :=
  emap Real.sqrt
    (ezip (· + ·)
      (ezip (· + ·)
        (emap (fun t => t ^ 2)
          (ezip (· + ·) (emap (fun k => k ^ 2 / (2 * k0)) (KgridOm kxs doms))
            (emap (fun w => D0 * (w * 1e6) ^ 2) (meshgridY kxs doms))))
        (emap (fun k => k ^ 2 * dn) (KgridOm kxs doms)))
      (emap (fun w => (w * 1e6) ^ 2 * D0 * k0 * dn) (meshgridY kxs doms)))

/-! ## 1D cuts (from the source) -/

/-- The spatial cut at fixed `kx` over the `ky` samples
(`dash-app.py` lines 76-78): `K_cut = np.sqrt(kx_fixed**2 + ky_cut**2)`,
then the dispersion formula on `K_cut`, elementwise. -/
noncomputable def OmegaB_cut (k0 dn kxf : ℝ) (kys : List ℝ) : List ℝ :=
  (kys.map (fun ky => Real.sqrt (kxf ^ 2 + ky ^ 2))).map
    (fun K => Real.sqrt ((K ^ 2 / (2 * k0)) ^ 2 + K ^ 2 * dn))

/-- The spatio-temporal cut at fixed `kx` over the Δω samples
(`multi_dash.py` lines 222-232): `K_cut = kx_fixed` is a scalar, the formula
is mapped over `domega_cut`. -/
noncomputable def OmegaOm_cut_fixkx (k0 dn D0 kxf : ℝ) (doms : List ℝ) : List ℝ :=
  doms.map (fun dom =>
    Real.sqrt ((kxf ^ 2 / (2 * k0) + D0 * (dom * 1e6) ^ 2) ^ 2
      + kxf ^ 2 * dn + (dom * 1e6) ^ 2 * D0 * k0 * dn))

/-- The spatio-temporal cut at fixed Δω over the `kx` samples
(`multi_dash.py` lines 239-249): `K_cut = np.abs(kx_cut)`, then the formula
elementwise. -/
noncomputable def OmegaOm_cut_fixdom (k0 dn D0 domf : ℝ) (kxs : List ℝ) : List ℝ :=
  (kxs.map (fun kx => |kx|)).map
    (fun K => Real.sqrt ((K ^ 2 / (2 * k0) + D0 * (domf * 1e6) ^ 2) ^ 2
      + K ^ 2 * dn + (domf * 1e6) ^ 2 * D0 * k0 * dn))

/-! ## The guarded evaluator (spec §§6-7) -/

/-- The single error condition of the evaluation contract. -/
inductive EvalError where
  | InvalidParameter

/-- Modelled from the spec: the repository contains no standalone guarded
`DispersionEvaluator` component — the scripts under `src/` inline the
formula with no parameter validation.  Spec §7 prescribes a single
`InvalidParameter` condition, raised when `Δn < 0` or `k0 ≤ 0`, before any
computation proceeds; otherwise the evaluation returns the fully populated
grid computed by the pipeline of `dash-app.py`. -/
noncomputable def evaluate_grid (k0 dn : ℝ) (kxs kys : List ℝ) :
    Except EvalError Mat :=
  if dn < 0 ∨ k0 ≤ 0 then .error .InvalidParameter
  else .ok (OmegaB_grid k0 dn kxs kys)

/-! ## App-level callback pipelines (unit conversions) -/

/-- Embeds the constant `lambda0 = 780e-9` (`dash-app.py` line 10). -/
noncomputable def lambda0 : ℝ := 780e-9

/-- Embeds the constant `k0 = 2 * np.pi / lambda0` (`dash-app.py` line 11). -/
noncomputable def k0_const : ℝ := 2 * Real.pi / lambda0

/-- Embeds the constant `D0 = 10e-15` (`dash_app-omega.py` line 12). -/
noncomputable def D0_const : ℝ := 10e-15

/-- The cut computed by `update_plot` in `dash-app.py` (lines 66-78) for
slider values `(delta_n_slider_value, kx_fixed)`: `Δn = slider·1e-5`, and
`kx_fixed` is substituted into the cut as received. -/
noncomputable def dashApp_cut (dns kxf : ℝ) (kys : List ℝ) : List ℝ :=
  OmegaB_cut k0_const (dns * 1e-5) kxf kys

/-- The cut computed by `update_plot` in `dash_app-omega.py` (lines 67-80)
for slider values `(delta_n_slider_value, kx_fixed_slider_value)`:
`Δn = slider·1e-5`, `kx_fixed = slider·1e3`, `K_cut = np.sqrt(kx_fixed**2)`,
formula mapped over the Δω samples. -/
noncomputable def omegaApp_cut (dns kxslider : ℝ) (doms : List ℝ) : List ℝ :=
  doms.map (fun dom =>
    Real.sqrt ((Real.sqrt ((kxslider * 1e3) ^ 2) ^ 2 / (2 * k0_const)
        + D0_const * (dom * 1e6) ^ 2) ^ 2
      + Real.sqrt ((kxslider * 1e3) ^ 2) ^ 2 * (dns * 1e-5)
      + (dom * 1e6) ^ 2 * D0_const * k0_const * (dns * 1e-5)))

/-- The `fix_kx` cut computed by `update_omega_plot` in `multi_dash.py`
(lines 210-232): `Δn = slider·1e-5`, `D0 = slider·1e-15`,
`kx_fixed = slider·1e3`. -/
noncomputable def multiDash_cut_fixkx (dns gvd kxslider : ℝ)
    (doms : List ℝ) : List ℝ :=
  OmegaOm_cut_fixkx k0_const (dns * 1e-5) (gvd * 1e-15) (kxslider * 1e3) doms

/-! ## The constant-based Bogoliubov script `bogo2d.py` -/

/-- Embeds `omega` from `bogo2d.py` (line 18), as a function of the wavevector
magnitude `K`:
`omega = np.sqrt((hbar**2 * K**2) / (2 * m) * ((hbar**2 * K**2) / (2 * m) + 2 * g * n))`. -/
noncomputable def omega_bogo (hbar m g n K : ℝ) : ℝ :=
  Real.sqrt (hbar ^ 2 * K ^ 2 / (2 * m) * (hbar ^ 2 * K ^ 2 / (2 * m) + 2 * g * n))

/-! ## Collapse lemmas: the numpy pipelines are elementwise -/

theorem zipWith_map_same {α β γ δ : Type} (f : β → γ → δ) (g : α → β) (g' : α → γ)
    (l : List α) :
    List.zipWith f (l.map g) (l.map g') = l.map (fun x => f (g x) (g' x)) := by
  induction l with
  | nil => rfl
  | cons a t ih => simp [ih]

theorem zipWith_replicate_map {α β γ δ : Type} (f : β → γ → δ) (b : β) (g : α → γ)
    (l : List α) :
    List.zipWith f (List.replicate l.length b) (l.map g)
      = l.map (fun x => f b (g x)) := by
  induction l with
  | nil => rfl
  | cons a t ih => simp [List.replicate_succ, ih]

theorem zipWith_map_replicate {α β γ δ : Type} (f : β → γ → δ) (g : α → β) (c : γ)
    (l : List α) :
    List.zipWith f (l.map g) (List.replicate l.length c)
      = l.map (fun x => f (g x) c) := by
  induction l with
  | nil => rfl
  | cons a t ih => simp [List.replicate_succ, ih]

theorem Kgrid_eq (kxs kys : List ℝ) :
    Kgrid kxs kys = kys.map (fun ky => kxs.map (fun kx => Kmag kx ky)) := by
  unfold Kgrid meshgridX meshgridY Kmag
  simp [emap, ezip, List.map_map, Function.comp, zipWith_map_same, zipWith_replicate_map, zipWith_map_replicate]

theorem OmegaB_grid_eq (k0 dn : ℝ) (kxs kys : List ℝ) :
    OmegaB_grid k0 dn kxs kys
      = kys.map (fun ky => kxs.map (fun kx => OmegaB k0 dn kx ky)) := by
  unfold OmegaB_grid OmegaB radB
  rw [Kgrid_eq]
  simp [emap, ezip, List.map_map, Function.comp, zipWith_map_same, zipWith_replicate_map, zipWith_map_replicate]

theorem KgridOm_eq (kxs doms : List ℝ) :
    KgridOm kxs doms = doms.map (fun _ => kxs.map (fun kx => KmagOm kx)) := by
  unfold KgridOm meshgridX KmagOm
  simp [emap, List.map_map, Function.comp]

theorem OmegaOm_grid_eq (k0 dn D0 : ℝ) (kxs doms : List ℝ) :
    OmegaOm_grid k0 dn D0 kxs doms
      = doms.map (fun dom => kxs.map (fun kx => OmegaOm k0 dn D0 kx dom)) := by
  unfold OmegaOm_grid OmegaOm radOm meshgridY
  rw [KgridOm_eq]
  simp [emap, ezip, List.map_map, Function.comp, zipWith_map_same, zipWith_replicate_map, zipWith_map_replicate]

theorem k0_const_pos : 0 < k0_const := by
  unfold k0_const lambda0
  apply div_pos (by positivity)
  norm_num

/-! ## Claim theorems -/

/-- C1: in spatial 2D mode, for every pair of sample axes and every grid
point, the computed dispersion value at entry `(i, j)` of the meshgrid
pipeline equals the scalar formula
`sqrt((K²/(2·k0))² + K²·Δn)` with `K = sqrt(kx² + ky²)` (which is exactly
`OmegaB`) applied at `(kxs[j], kys[i])` — no cross-point coupling. -/
theorem spatial_grid_matches_scalar (k0 dn : ℝ) (kxs kys : List ℝ) (i j : ℕ)
    (hi : i < kys.length) (hj : j < kxs.length) :
    ∃ row, (OmegaB_grid k0 dn kxs kys)[i]? = some row ∧
      row[j]? = some (OmegaB k0 dn kxs[j] kys[i]) := by
  refine ⟨kxs.map (fun kx => OmegaB k0 dn kx kys[i]), ?_, ?_⟩
  · rw [OmegaB_grid_eq]
    simp [List.getElem?_eq_getElem, hi]
  · simp [List.getElem?_eq_getElem, hj]

theorem spatial_grid_matches_scalar_witness :
    ∃ row, (OmegaB_grid 1 1 [1, 2] [3])[0]? = some row ∧
      row[1]? = some (OmegaB 1 1 2 3) := by
  simpa using spatial_grid_matches_scalar 1 1 [1, 2] [3] 0 1 (by simp) (by simp)

/-- C2: in spatio-temporal mode, entry `(i, j)` of the meshgrid pipeline
equals `sqrt((K²/(2·k0) + D0·Δω²)² + K²·Δn + Δω²·D0·k0·Δn)` with
`K = |kxs[j]|` and `Δω = doms[i]·1e6` (the Δω axis is supplied in MHz and
multiplied by 1e6 before use). -/
theorem spatiotemporal_grid_matches_scalar (k0 dn D0 : ℝ) (kxs doms : List ℝ)
    (i j : ℕ) (hi : i < doms.length) (hj : j < kxs.length) :
    ∃ row, (OmegaOm_grid k0 dn D0 kxs doms)[i]? = some row ∧
      row[j]? = some (Real.sqrt
        ((|kxs[j]| ^ 2 / (2 * k0) + D0 * (doms[i] * 1e6) ^ 2) ^ 2
          + |kxs[j]| ^ 2 * dn + (doms[i] * 1e6) ^ 2 * D0 * k0 * dn)) := by
  refine ⟨kxs.map (fun kx => OmegaOm k0 dn D0 kx doms[i]), ?_, ?_⟩
  · rw [OmegaOm_grid_eq]
    simp [List.getElem?_eq_getElem, hi]
  · simp [List.getElem?_eq_getElem, hj, OmegaOm, radOm, KmagOm,
      Real.sqrt_sq_eq_abs]

theorem spatiotemporal_grid_matches_scalar_witness :
    ∃ row, (OmegaOm_grid 1 1 1 [1, 2] [3])[0]? = some row ∧
      row[1]? = some (Real.sqrt
        ((|(2 : ℝ)| ^ 2 / (2 * 1) + 1 * ((3 : ℝ) * 1e6) ^ 2) ^ 2
          + |(2 : ℝ)| ^ 2 * 1 + ((3 : ℝ) * 1e6) ^ 2 * 1 * 1 * 1)) := by
  simpa using spatiotemporal_grid_matches_scalar 1 1 1 [1, 2] [3] 0 1
    (by simp) (by simp)

/-- C6: for valid parameters the spatial dispersion is invariant under
`(kx, ky) ↦ (-kx, -ky)` and `(kx, ky) ↦ (kx, -ky)`, and the spatio-temporal
dispersion is invariant under `kx ↦ -kx`. -/
theorem dispersion_sign_symmetry (k0 dn D0 kx ky dom : ℝ)
    (hk0 : 0 < k0) (hdn : 0 ≤ dn) :
    OmegaB k0 dn kx ky = OmegaB k0 dn (-kx) (-ky)
      ∧ OmegaB k0 dn kx ky = OmegaB k0 dn kx (-ky)
      ∧ OmegaOm k0 dn D0 kx dom = OmegaOm k0 dn D0 (-kx) dom := by
  unfold OmegaOm radOm KmagOm OmegaB radB Kmag
  simp [neg_sq]

theorem dispersion_sign_symmetry_witness :
    OmegaB 1 1 2 3 = OmegaB 1 1 (-2) (-3)
      ∧ OmegaB 1 1 2 3 = OmegaB 1 1 2 (-3)
      ∧ OmegaOm 1 1 1 2 3 = OmegaOm 1 1 1 (-2) 3 :=
  dispersion_sign_symmetry 1 1 1 2 3 3 (by norm_num) (by norm_num)

/-- C8: cut mode is not a separate formula — each entry of the 1D cut
equals the scalar dispersion of the active mode evaluated with the fixed axis
held at its scalar value and the varying axis at the corresponding sample,
in the spatial cut and in both spatio-temporal cut directions. -/
theorem cut_matches_scalar (k0 dn D0 kxf domf : ℝ) (kys doms kxs : List ℝ) :
    (∀ i, (h : i < kys.length) →
        (OmegaB_cut k0 dn kxf kys)[i]? = some (OmegaB k0 dn kxf kys[i]))
      ∧ (∀ i, (h : i < doms.length) →
        (OmegaOm_cut_fixkx k0 dn D0 kxf doms)[i]?
          = some (OmegaOm k0 dn D0 kxf doms[i]))
      ∧ (∀ i, (h : i < kxs.length) →
        (OmegaOm_cut_fixdom k0 dn D0 domf kxs)[i]?
          = some (OmegaOm k0 dn D0 kxs[i] domf)) := by
  refine ⟨fun i h => ?_, fun i h => ?_, fun i h => ?_⟩
  · simp [OmegaB_cut, List.map_map, List.getElem?_eq_getElem, h,
      OmegaB, radB, Kmag, Function.comp]
  · simp [OmegaOm_cut_fixkx, List.getElem?_eq_getElem, h,
      OmegaOm, radOm, KmagOm, Real.sq_sqrt (sq_nonneg kxf)]
  · simp [OmegaOm_cut_fixdom, List.map_map, List.getElem?_eq_getElem, h,
      OmegaOm, radOm, KmagOm, Real.sqrt_sq_eq_abs, sq_abs, Function.comp]

theorem cut_matches_scalar_witness :
    (OmegaB_cut 1 1 2 [5])[0]? = some (OmegaB 1 1 2 5)
      ∧ (OmegaOm_cut_fixkx 1 1 1 2 [7])[0]? = some (OmegaOm 1 1 1 2 7)
      ∧ (OmegaOm_cut_fixdom 1 1 1 3 [9])[0]? = some (OmegaOm 1 1 1 9 3) := by
  obtain ⟨h1, h2, h3⟩ := cut_matches_scalar 1 1 1 2 3 [5] [7] [9]
  exact ⟨by simpa using h1 0 (by simp), by simpa using h2 0 (by simp),
    by simpa using h3 0 (by simp)⟩

/-- C9: the healing-length wavenumber `round(k0·sqrt(Δn)·1e-3)` is
monotonically non-decreasing in Δn for fixed `k0 > 0`. -/
theorem healing_wavenumber_mono (k0 dn1 dn2 : ℝ)
    (hk0 : 0 < k0) (h1 : 0 ≤ dn1) (h12 : dn1 ≤ dn2) :
    healing_wavenumber k0 dn1 ≤ healing_wavenumber k0 dn2 := by
  unfold healing_wavenumber
  rw [round_eq, round_eq]
  apply Int.floor_le_floor
  have hs : Real.sqrt dn1 ≤ Real.sqrt dn2 := Real.sqrt_le_sqrt h12
  have hm : k0 * Real.sqrt dn1 * 1e-3 ≤ k0 * Real.sqrt dn2 * 1e-3 := by
    apply mul_le_mul_of_nonneg_right _ (by norm_num)
    exact mul_le_mul_of_nonneg_left hs hk0.le
  linarith

theorem healing_wavenumber_mono_witness :
    healing_wavenumber 2 0 ≤ healing_wavenumber 2 1 :=
  healing_wavenumber_mono 2 0 1 (by norm_num) (by norm_num) (by norm_num)

/-- C3: with `Δn < 0` or `k0 ≤ 0` the evaluation fails immediately with
`InvalidParameter`; with `Δn ≥ 0` and `k0 > 0` it succeeds and returns a
fully populated (grid-shaped) array — there is no partial failure. -/
theorem evaluator_guard (k0 dn : ℝ) (kxs kys : List ℝ) :
    ((dn < 0 ∨ k0 ≤ 0) →
        evaluate_grid k0 dn kxs kys = .error .InvalidParameter)
      ∧ (0 ≤ dn → 0 < k0 →
        evaluate_grid k0 dn kxs kys = .ok (OmegaB_grid k0 dn kxs kys)
          ∧ (OmegaB_grid k0 dn kxs kys).length = kys.length
          ∧ ∀ row ∈ OmegaB_grid k0 dn kxs kys, row.length = kxs.length) := by
  constructor
  · intro h
    unfold evaluate_grid
    rw [if_pos h]
  · intro h1 h2
    have hn : ¬(dn < 0 ∨ k0 ≤ 0) := by push_neg; exact ⟨h1, h2⟩
    refine ⟨by unfold evaluate_grid; rw [if_neg hn], ?_, ?_⟩
    · rw [OmegaB_grid_eq]; simp
    · intro row hr
      rw [OmegaB_grid_eq] at hr
      obtain ⟨ky, -, rfl⟩ := List.mem_map.mp hr
      simp

/-- C4 counterexample: with the valid parameters `k0 = 1`, `Δn = 1` and the
real `D0 = -1`, at the grid point `kx = 0`, `Δω = 1/2000000` MHz the
radicand of the spatio-temporal formula is negative, so the floating-point
evaluation `np.sqrt` performed by the code returns NaN there — the claim
that every entry is a non-negative real (never NaN) for any real `D0`
fails. -/
theorem dispersion_nonneg_counterexample :
    OmegaOm_ieee 1 1 (-1) 0 (1 / 2000000) = none
      ∧ radOm 1 1 (-1) 0 (1 / 2000000) < 0 := by
  have h : radOm 1 1 (-1) 0 (1 / 2000000) < 0 := by
    norm_num [radOm, KmagOm, Real.sqrt_zero]
  refine ⟨?_, h⟩
  unfold OmegaOm_ieee sqrtChecked
  rw [if_neg (not_le.mpr h)]

/-- C4 (amended): for valid parameters with `D0 ≥ 0` — as the default
scripts use — both radicands are non-negative (so `np.sqrt` never produces
NaN, witnessed by the checked evaluation returning `some`), and every entry
of the grid-mode and cut-mode results, in both modes, is non-negative. -/
theorem dispersion_nonneg (k0 dn D0 kx ky dom kxf domf : ℝ)
    (kxs kys doms : List ℝ)
    (hk0 : 0 < k0) (hdn : 0 ≤ dn) (hD0 : 0 ≤ D0) :
    0 ≤ radB k0 dn kx ky
      ∧ 0 ≤ radOm k0 dn D0 kx dom
      ∧ OmegaOm_ieee k0 dn D0 kx dom = some (OmegaOm k0 dn D0 kx dom)
      ∧ (∀ row ∈ OmegaB_grid k0 dn kxs kys, ∀ x ∈ row, 0 ≤ x)
      ∧ (∀ row ∈ OmegaOm_grid k0 dn D0 kxs doms, ∀ x ∈ row, 0 ≤ x)
      ∧ (∀ x ∈ OmegaB_cut k0 dn kxf kys, 0 ≤ x)
      ∧ (∀ x ∈ OmegaOm_cut_fixkx k0 dn D0 kxf doms, 0 ≤ x)
      ∧ (∀ x ∈ OmegaOm_cut_fixdom k0 dn D0 domf kxs, 0 ≤ x) := by
  have hrB : 0 ≤ radB k0 dn kx ky := by
    unfold radB
    exact add_nonneg (sq_nonneg _) (mul_nonneg (sq_nonneg _) hdn)
  have hrOm : 0 ≤ radOm k0 dn D0 kx dom := by
    unfold radOm
    refine add_nonneg (add_nonneg (sq_nonneg _)
      (mul_nonneg (sq_nonneg _) hdn)) ?_
    exact mul_nonneg (mul_nonneg (mul_nonneg (sq_nonneg _) hD0) hk0.le) hdn
  refine ⟨hrB, hrOm, ?_, ?_, ?_, ?_, ?_, ?_⟩
  · simp [OmegaOm_ieee, sqrtChecked, hrOm, OmegaOm]
  · intro row hr x hx
    rw [OmegaB_grid_eq] at hr
    obtain ⟨ky', -, rfl⟩ := List.mem_map.mp hr
    obtain ⟨kx', -, rfl⟩ := List.mem_map.mp hx
    exact Real.sqrt_nonneg _
  · intro row hr x hx
    rw [OmegaOm_grid_eq] at hr
    obtain ⟨dom', -, rfl⟩ := List.mem_map.mp hr
    obtain ⟨kx', -, rfl⟩ := List.mem_map.mp hx
    exact Real.sqrt_nonneg _
  · intro x hx
    obtain ⟨K, -, rfl⟩ := List.mem_map.mp hx
    exact Real.sqrt_nonneg _
  · intro x hx
    obtain ⟨dom', -, rfl⟩ := List.mem_map.mp hx
    exact Real.sqrt_nonneg _
  · intro x hx
    obtain ⟨K, -, rfl⟩ := List.mem_map.mp hx
    exact Real.sqrt_nonneg _

theorem dispersion_nonneg_witness :
    0 ≤ radB 1 1 2 3
      ∧ 0 ≤ radOm 1 1 1 2 3
      ∧ OmegaOm_ieee 1 1 1 2 3 = some (OmegaOm 1 1 1 2 3)
      ∧ (∀ row ∈ OmegaB_grid 1 1 [4] [5], ∀ x ∈ row, 0 ≤ x)
      ∧ (∀ row ∈ OmegaOm_grid 1 1 1 [4] [6], ∀ x ∈ row, 0 ≤ x)
      ∧ (∀ x ∈ OmegaB_cut 1 1 7 [5], 0 ≤ x)
      ∧ (∀ x ∈ OmegaOm_cut_fixkx 1 1 1 7 [6], 0 ≤ x)
      ∧ (∀ x ∈ OmegaOm_cut_fixdom 1 1 1 8 [4], 0 ≤ x) :=
  dispersion_nonneg 1 1 1 2 3 3 7 8 [4] [5] [6]
    (by norm_num) (by norm_num) (by norm_num)

/-- C7 counterexample: at `Δn = 0` with `k0 = 1`, `D0 = -1`, `kx = 0`,
`Δω = 1` MHz (`1e-6` in the slider scale used here gives `Δω·1e6 = 1`),
the spatio-temporal dispersion is `sqrt((−1)²) = 1` while the free
reference is `−1`: the claimed pointwise equality for every real `D0`
fails. -/
theorem interacting_free_counterexample :
    OmegaOm 1 0 (-1) 0 (1 / 1000000) ≠ OmegaOm_free 1 (-1) 0 (1 / 1000000) := by
  have h1 : OmegaOm 1 0 (-1) 0 (1 / 1000000) = 1 := by
    norm_num [OmegaOm, radOm, KmagOm, Real.sqrt_zero, Real.sqrt_one]
  have h2 : OmegaOm_free 1 (-1) 0 (1 / 1000000) = -1 := by
    norm_num [OmegaOm_free, KmagOm, Real.sqrt_zero]
  rw [h1, h2]
  norm_num

/-- C7 (amended): with `k0 > 0` fixed and `D0 ≥ 0`, the interacting
dispersion tends to the free reference pointwise as `Δn → 0`, and equals it
exactly at `Δn = 0`, in both the spatial and the spatio-temporal mode. -/
theorem interacting_tendsto_free (k0 D0 kx ky dom : ℝ)
    (hk0 : 0 < k0) (hD0 : 0 ≤ D0) :
    OmegaB k0 0 kx ky = OmegaB_free k0 kx ky
      ∧ Filter.Tendsto (fun dn => OmegaB k0 dn kx ky) (nhds 0)
          (nhds (OmegaB_free k0 kx ky))
      ∧ OmegaOm k0 0 D0 kx dom = OmegaOm_free k0 D0 kx dom
      ∧ Filter.Tendsto (fun dn => OmegaOm k0 dn D0 kx dom) (nhds 0)
          (nhds (OmegaOm_free k0 D0 kx dom)) := by
  have heqB : OmegaB k0 0 kx ky = OmegaB_free k0 kx ky := by
    unfold OmegaB radB OmegaB_free
    rw [mul_zero, add_zero, Real.sqrt_sq (div_nonneg (sq_nonneg _) (by linarith))]
  have heqOm : OmegaOm k0 0 D0 kx dom = OmegaOm_free k0 D0 kx dom := by
    unfold OmegaOm radOm OmegaOm_free
    rw [mul_zero, add_zero, mul_zero, add_zero]
    exact Real.sqrt_sq (add_nonneg (div_nonneg (sq_nonneg _) (by linarith))
      (mul_nonneg hD0 (sq_nonneg _)))
  have hcB : Continuous (fun dn : ℝ => OmegaB k0 dn kx ky) := by
    unfold OmegaB radB
    exact Real.continuous_sqrt.comp
      (continuous_const.add (continuous_const.mul continuous_id))
  have hcOm : Continuous (fun dn : ℝ => OmegaOm k0 dn D0 kx dom) := by
    unfold OmegaOm radOm
    exact Real.continuous_sqrt.comp
      ((continuous_const.add (continuous_const.mul continuous_id)).add
        (continuous_const.mul continuous_id))
  refine ⟨heqB, ?_, heqOm, ?_⟩
  · have ht := hcB.tendsto 0
    rwa [heqB] at ht
  · have ht := hcOm.tendsto 0
    rwa [heqOm] at ht

theorem interacting_tendsto_free_witness :
    OmegaB 1 0 2 3 = OmegaB_free 1 2 3
      ∧ Filter.Tendsto (fun dn => OmegaB 1 dn 2 3) (nhds 0)
          (nhds (OmegaB_free 1 2 3))
      ∧ OmegaOm 1 0 1 2 3 = OmegaOm_free 1 1 2 3
      ∧ Filter.Tendsto (fun dn => OmegaOm 1 dn 1 2 3) (nhds 0)
          (nhds (OmegaOm_free 1 1 2 3)) :=
  interacting_tendsto_free 1 1 2 3 3 (by norm_num) (by norm_num)

theorem evaluator_guard_witness :
    evaluate_grid 1 (-1) [0] [0] = .error .InvalidParameter
      ∧ (evaluate_grid 1 1 [0] [0] = .ok (OmegaB_grid 1 1 [0] [0])
        ∧ (OmegaB_grid 1 1 [0] [0]).length = ([(0 : ℝ)]).length
        ∧ ∀ row ∈ OmegaB_grid 1 1 [0] [0], row.length = ([(0 : ℝ)]).length) :=
  ⟨(evaluator_guard 1 (-1) [0] [0]).1 (Or.inl (by norm_num)),
    (evaluator_guard 1 1 [0] [0]).2 (by norm_num) (by norm_num)⟩

/-- C5 counterexample: in the `update_plot` of `dash-app.py`, the fixed-kx
slider value is substituted into the cut with no `×1e3` conversion: at
slider values `Δn-slider = 1`, `kx_fixed = 1000`, the first cut entry
(at `ky = 0`) differs from the formula evaluated at `1000·1e3`. -/
theorem cut_kx_conversion_counterexample :
    (dashApp_cut 1 1000 [0])[0]?
      ≠ some (OmegaB k0_const (1 * 1e-5) (1000 * 1e3) 0) := by
  have hentry : (dashApp_cut 1 1000 [0])[0]?
      = some (OmegaB k0_const (1 * 1e-5) 1000 0) := by
    simp [dashApp_cut, OmegaB_cut, List.map_map, OmegaB, radB, Kmag,
      Function.comp]
  rw [hentry]
  intro heq
  have hval : OmegaB k0_const (1 * 1e-5) 1000 0
      = OmegaB k0_const (1 * 1e-5) (1000 * 1e3) 0 := by
    exact Option.some.inj heq
  have hK1 : Kmag 1000 0 ^ 2 = 1000 ^ 2 := by
    unfold Kmag
    rw [Real.sq_sqrt (by norm_num)]
    norm_num
  have hK2 : Kmag (1000 * 1e3) 0 ^ 2 = (1000 * 1e3) ^ 2 := by
    unfold Kmag
    rw [Real.sq_sqrt (by norm_num)]
    norm_num
  have h2k : (0 : ℝ) < 2 * k0_const := by
    have := k0_const_pos; linarith
  have hlt : OmegaB k0_const (1 * 1e-5) 1000 0
      < OmegaB k0_const (1 * 1e-5) (1000 * 1e3) 0 := by
    unfold OmegaB radB
    apply Real.sqrt_lt_sqrt
    · positivity
    · rw [hK1, hK2]
      have hfrac : (1000 : ℝ) ^ 2 / (2 * k0_const)
          < ((1000 * 1e3 : ℝ)) ^ 2 / (2 * k0_const) :=
        (div_lt_div_iff_of_pos_right h2k).mpr (by norm_num)
      have hsq : ((1000 : ℝ) ^ 2 / (2 * k0_const)) ^ 2
          < (((1000 * 1e3 : ℝ)) ^ 2 / (2 * k0_const)) ^ 2 :=
        pow_lt_pow_left₀ hfrac (by positivity) (two_ne_zero)
      have hterm : (1000 : ℝ) ^ 2 * (1 * 1e-5)
          < ((1000 * 1e3 : ℝ)) ^ 2 * (1 * 1e-5) := by norm_num
      linarith
  exact absurd hval (ne_of_lt hlt)

/-- C5 (amended): in `update_plot` of `dash_app-omega.py` and
`update_omega_plot` of `multi_dash.py`, the fixed kx cut value is supplied
in mm⁻¹ and multiplied by 1e3 (converted to m⁻¹) before being substituted
into the dispersion formula; in `update_plot` of `dash-app.py` the slider
value is substituted into the formula unconverted (the slider is already
graduated in m⁻¹). -/
theorem cut_kx_unit_conversion (dns gvd kxslider kxf : ℝ)
    (doms kys : List ℝ) :
    (∀ i, (h : i < doms.length) →
        (omegaApp_cut dns kxslider doms)[i]?
          = some (OmegaOm k0_const (dns * 1e-5) D0_const
              (kxslider * 1e3) doms[i]))
      ∧ (∀ i, (h : i < doms.length) →
        (multiDash_cut_fixkx dns gvd kxslider doms)[i]?
          = some (OmegaOm k0_const (dns * 1e-5) (gvd * 1e-15)
              (kxslider * 1e3) doms[i]))
      ∧ (∀ i, (h : i < kys.length) →
        (dashApp_cut dns kxf kys)[i]?
          = some (OmegaB k0_const (dns * 1e-5) kxf kys[i])) := by
  refine ⟨fun i h => ?_, fun i h => ?_, fun i h => ?_⟩
  · simp [omegaApp_cut, List.getElem?_eq_getElem, h, OmegaOm, radOm, KmagOm]
  · simp [multiDash_cut_fixkx, OmegaOm_cut_fixkx, List.getElem?_eq_getElem, h,
      OmegaOm, radOm, KmagOm, Real.sq_sqrt (sq_nonneg (kxslider * 1e3))]
  · simp [dashApp_cut, OmegaB_cut, List.map_map, List.getElem?_eq_getElem, h,
      OmegaB, radB, Kmag, Function.comp]

theorem cut_kx_unit_conversion_witness :
    (omegaApp_cut 1 2 [3])[0]?
        = some (OmegaOm k0_const (1 * 1e-5) D0_const (2 * 1e3) 3)
      ∧ (multiDash_cut_fixkx 1 4 2 [3])[0]?
        = some (OmegaOm k0_const (1 * 1e-5) (4 * 1e-15) (2 * 1e3) 3)
      ∧ (dashApp_cut 1 5 [6])[0]?
        = some (OmegaB k0_const (1 * 1e-5) 5 6) := by
  obtain ⟨h1, h2, h3⟩ := cut_kx_unit_conversion 1 4 2 5 [3] [6]
  exact ⟨by simpa using h1 0 (by simp), by simpa using h2 0 (by simp),
    by simpa using h3 0 (by simp)⟩

/-- C10: for every `K ≥ 0` the constant-based Bogoliubov formula of
`bogo2d.py` equals the Δn-parameterised spatial formula (evaluated at the
point `(K, 0)`, where the wavevector magnitude is `K`) under the mapping
`k0 = m/ħ²`, `Δn = g·n·ħ²/m`; with the script defaults
`ħ = m = g = n = 1` it coincides with the spatial formula at
`k0 = 1`, `Δn = 1`. -/
theorem bogo2d_matches_spatial (hbar m g n K : ℝ) (hK : 0 ≤ K) :
    omega_bogo hbar m g n K = OmegaB (m / hbar ^ 2) (g * n * hbar ^ 2 / m) K 0
      ∧ omega_bogo 1 1 1 1 K = OmegaB 1 1 K 0 := by
  have key : ∀ hb mm gg nn : ℝ,
      omega_bogo hb mm gg nn K
        = OmegaB (mm / hb ^ 2) (gg * nn * hb ^ 2 / mm) K 0 := by
    intro hb mm gg nn
    unfold omega_bogo OmegaB radB
    have hKmag : Kmag K 0 ^ 2 = K ^ 2 := by
      unfold Kmag
      rw [Real.sq_sqrt (by positivity)]
      ring
    rw [hKmag]
    congr 1
    rw [show (2 : ℝ) * (mm / hb ^ 2) = 2 * mm / hb ^ 2 from
        (mul_div_assoc 2 mm (hb ^ 2)).symm,
      div_div_eq_mul_div]
    ring
  refine ⟨key hbar m g n, ?_⟩
  have h1 := key 1 1 1 1
  norm_num at h1
  exact h1

theorem bogo2d_matches_spatial_witness :
    omega_bogo 1 1 1 1 2 = OmegaB (1 / 1 ^ 2) (1 * 1 * 1 ^ 2 / 1) 2 0
      ∧ omega_bogo 1 1 1 1 2 = OmegaB 1 1 2 0 :=
  bogo2d_matches_spatial 1 1 1 1 2 (by norm_num)

end Bogo3D
